import Mathlib

/-!
Shallow embedding of views.py (the lazy sequence-view algebra: Seq,
SeqChain, and the index mathematics of Python slicing) together with
theorems checking the claims of the specification against it.

Modelling conventions:
* Python objects that can appear as underlying collections or chain parts
  are modelled by PyObj (lists of elements, strings, and two
  non-sequence representatives, int and None).
* Views hold non-owning references to their underlying collections; a
  mutation of a referenced collection is modelled by passing the current
  state of the collection as an extra argument to the access functions
  (Seq.getitem takes cur, SeqChain.getitem takes curParts), while the
  immutable snapshot fields of the view (len_orig, the normalized triple,
  len) live in the structure.
* Fallible Python code returns Except Err; each raised exception kind is
  one Err constructor carrying the message text from the source
  (apostrophes in messages are written as the escape \x27).
-/

namespace Views

/-- Elements stored in the modelled collections: Python ints and the
one-character strings produced by indexing a str. -/
inductive Elem where
  | int (n : Int)
  | chr (c : Char)
deriving DecidableEq

instance : Inhabited Elem := ⟨Elem.int 0⟩

/-- Exception kinds raised by the code in views.py, with their messages. -/
inductive Err where
  | typeError (msg : String)
  | indexError (msg : String)
  | valueError (msg : String)
  | lengthChangedError (msg : String)
  | nameError (msg : String)
  | unboundLocalError (msg : String)
deriving DecidableEq

/-- Python values that can be offered as underlying collections or chain
parts: list and str are sequences, int and None are the non-sequence
representatives used by the error-handling claims. -/
inductive PyObj where
  | list (xs : List Elem)
  | str (s : List Char)
  | intObj (n : Int)
  | noneObj
deriving DecidableEq

/-- Model of the Python expression type(obj).__name__. -/
def PyObj.typeName : PyObj → String
  | .list _ => "list"
  | .str _ => "str"
  | .intObj _ => "int"
  | .noneObj => "NoneType"

/-- Model of issequence(obj) from views.py: the type of the object has
both __getitem__ and __len__ (true for list and str). -/
def PyObj.issequence : PyObj → Bool
  | .list _ => true
  | .str _ => true
  | .intObj _ => false
  | .noneObj => false

/-- Model of len(obj).  It is only ever called on objects that passed
issequence; the non-sequence constructors get the dummy value 0. -/
def PyObj.pyLen : PyObj → Nat
  | .list xs => xs.length
  | .str s => s.length
  | .intObj _ => 0
  | .noneObj => 0

/-- The element sequence of a collection (a str yields its characters as
one-character strings). -/
def PyObj.pyElems : PyObj → List Elem
  | .list xs => xs
  | .str s => s.map Elem.chr
  | .intObj _ => []
  | .noneObj => []

/-- Element lookup with a default value. -/
def nthD (l : List α) (n : Nat) (d : α) : α := (l.get? n).getD d

/-- Python integer indexing into a list of elements: negative indices
count from the end, anything outside the current bounds raises
IndexError. -/
def listGetInt (xs : List Elem) (msg : String) (i : Int) : Except Err Elem :=
  let n : Int := xs.length
  let j := if i < 0 then i + n else i
  if 0 ≤ j ∧ j < n then .ok (nthD xs j.toNat default)
  else .error (.indexError msg)

/-- Model of obj[i] for an integer i, per the Python semantics of each
modelled type. -/
def PyObj.getInt : PyObj → Int → Except Err Elem
  | .list xs, i => listGetInt xs ("list index out of range") i
  | .str s, i => listGetInt (s.map Elem.chr) ("string index out of range") i
  | .intObj _, _ => .error (.typeError ("\x27int\x27 object is not subscriptable"))
  | .noneObj, _ => .error (.typeError ("\x27NoneType\x27 object is not subscriptable"))

/-- Adjustment of one explicit (non-None) slice bound against length n,
exactly as the CPython method slice.indices does it: negative bounds are
shifted by n and then clamped, over-large bounds are clamped according to
the sign of the step. -/
def adjIndex (n : Nat) (s i : Int) : Int :=
  if i < 0 then
    if i + n < 0 then (if s < 0 then -1 else 0) else i + n
  else
    if (n : Int) ≤ i then (if s < 0 then (n : Int) - 1 else (n : Int)) else i

/-- Normalization of one optional slice bound: a missing bound becomes
the given default (which depends on the sign of the step), an explicit
bound is adjusted by adjIndex. -/
def normBound (o : Option Int) (dflt : Int) (n : Nat) (s : Int) : Int :=
  match o with
  | Option.none => dflt
  | Option.some i => adjIndex n s i

/-- Model of slice(start, stop, step).indices(n): the normalized
(start, stop, step) triple, or ValueError when the step is zero.
Missing bounds default to the full range respecting the sign of the
step. -/
def pyIndices (start stop step : Option Int) (n : Nat) :
    Except Err (Int × Int × Int) :=
  let s := step.getD 1
  if s = 0 then .error (.valueError ("slice step cannot be zero"))
  else
    .ok (normBound start (if s < 0 then (n : Int) - 1 else 0) n s,
         normBound stop (if s < 0 then -1 else (n : Int)) n s, s)

/-- Number of elements of the progression b, b+s, b+2*s, … strictly
before e in the direction of s (the CPython slice-length formula; the
divisions only ever see non-negative operands). -/
def rangeLength (b e s : Int) : Nat :=
  if 0 < s then (if b < e then (e - b - 1).toNat / s.toNat + 1 else 0)
  else if s < 0 then (if e < b then (b - e - 1).toNat / (-s).toNat + 1 else 0)
  else 0

/-- A Seq view handle: the snapshot taken at construction time.  The
reference to the underlying collection is non-owning; access functions
receive the current state of the referenced object separately. -/
structure Seq where
  len_orig : Nat
  b : Int
  e : Int
  s : Int
  len : Nat
deriving DecidableEq

/-- Body of Seq.__init__ after the issequence check, against an
underlying object whose current length is n.  The source sets
self._slice = slice(*slice(start, stop, step).indices(len(seq))) and
self._len = len(range(self._len_orig)[self._slice]); note that the
length is obtained by re-slicing range(n) with the already normalized
triple, which normalizes that triple a second time. -/
def Seq.initFrom (n : Nat) (start stop step : Option Int) : Except Err Seq :=
  match pyIndices start stop step n with
  | .error err => .error err
  | .ok (b, e, s) =>
    match pyIndices (Option.some b) (Option.some e) (Option.some s) n with
    | .error err => .error err
    | .ok (b2, e2, s2) => .ok ⟨n, b, e, s, rangeLength b2 e2 s2⟩

/-- Model of Seq.__init__(seq, start, stop, step). -/
def Seq.init (obj : PyObj) (start stop step : Option Int) : Except Err Seq :=
  if obj.issequence then Seq.initFrom obj.pyLen start stop step
  else .error (.typeError ("\x27" ++ obj.typeName ++ "\x27 object is not a sequence"))

/-- The possible subscript shapes handed to __getitem__: an object with
an __index__ method, a slice, a tuple, or something of none of those
kinds. -/
inductive Subscript where
  | idx (i : Int)
  | slc (start stop step : Option Int)
  | tup
  | nonIndex (typeName : String)

/-- Result of a successful __getitem__: an element, or a new view. -/
inductive GetResult where
  | elem (x : Elem)
  | view (w : Seq)
deriving DecidableEq

/-- Model of Seq.__getitem__, where cur is the current state of the
referenced underlying collection.  A tuple subscript is rejected first;
then the staleness check compares the current length of the collection
with len_orig; a slice subscript normalizes against len(self) and then
evaluates SeqView(...) — a name that is defined nowhere in views.py, so
the slice path raises NameError; an integer subscript is resolved with
the negative-index convention against len and delegated to the
collection at index b + i * s. -/
def Seq.getitem (v : Seq) (cur : PyObj) (sub : Subscript) :
    Except Err GetResult :=
  match sub with
  | .tup => .error (.typeError ("multi-indices not supperted"))
  | sub =>
    if cur.pyLen ≠ v.len_orig then
      .error (.lengthChangedError ("length of underlying sequence has changed"))
    else
      match sub with
      | .slc a c st =>
        match pyIndices a c st v.len with
        | .error err => .error err
        | .ok _ => .error (.nameError ("name \x27SeqView\x27 is not defined"))
      | .nonIndex _ =>
        .error (.typeError
          ("index must be an integer, a slice or have an __index__ method"))
      | .idx i =>
        let i2 := if i < 0 then (v.len : Int) + i else i
        if i2 < 0 ∨ (v.len : Int) ≤ i2 then
          .error (.indexError ("index out of range"))
        else (cur.getInt (v.b + i2 * v.s)).map GetResult.elem
      | .tup => .error (.typeError ("multi-indices not supperted"))

/-- A SeqChain view handle: only the length sum recorded at
construction.  The parts tuple holds non-owning references; access
functions receive the current states of the referenced parts as
curParts. -/
structure SeqChain where
  len : Nat
deriving DecidableEq

/-- The construction loop of SeqChain.__init__: walk the parts,
rejecting the first one that is not a sequence, accumulating lengths. -/
def chainLenAcc : List PyObj → Nat → Except Err Nat
  | [], acc => .ok acc
  | p :: ps, acc =>
    if p.issequence then chainLenAcc ps (acc + p.pyLen)
    else .error (.typeError ("\x27" ++ p.typeName ++ "\x27 object is not a sequence"))

/-- Model of SeqChain.__init__(*parts). -/
def SeqChain.init (parts : List PyObj) : Except Err SeqChain :=
  match chainLenAcc parts 0 with
  | .error err => .error err
  | .ok n => .ok ⟨n⟩

/-- State of the enumerate loop in SeqChain._find_position: the
enumeration counter, the ret variable (Option.none while still
unassigned), and the running start. -/
structure FindState where
  i : Nat
  ret : Option (Nat × Int)
  start : Nat
deriving DecidableEq

/-- The loop body of SeqChain._find_position. -/
def findLoop (index : Int) : List PyObj → FindState → FindState
  | [], st => st
  | p :: ps, st =>
    let newstart := st.start + p.pyLen
    let ret :=
      if (st.start : Int) ≤ index ∧ index < (newstart : Int) then
        Option.some (st.i, index - (st.start : Int))
      else st.ret
    findLoop index ps ⟨st.i + 1, ret, newstart⟩

/-- Model of SeqChain._find_position(index): out-of-bounds indices
return None before any walk; otherwise the walk runs over the current
parts, the final running length is compared with the recorded len
(raising LengthChangedError on mismatch, before ret is read), and the
owning part with its local offset is returned.  Reading ret while still
unassigned would be UnboundLocalError in Python; that branch is
unreachable when the length check passed. -/
def SeqChain.findPosition (c : SeqChain) (curParts : List PyObj)
    (index : Int) : Except Err (Option (Nat × Int)) :=
  if index < 0 ∨ (c.len : Int) ≤ index then .ok Option.none
  else
    let st := findLoop index curParts ⟨0, Option.none, 0⟩
    if st.start ≠ c.len then
      .error (.lengthChangedError ("length of one of chained sequences has changed"))
    else
      match st.ret with
      | Option.some r => .ok (Option.some r)
      | Option.none =>
        .error (.unboundLocalError
          ("local variable \x27ret\x27 referenced before assignment"))

/-- Model of SeqChain.__getitem__.  A tuple subscript is rejected; a
slice builds Seq(self, start, stop, step) — the chain always passes
issequence (its class has __getitem__ and __len__) and len(self) is the
stored len, so this is Seq.initFrom applied to c.len; an integer
subscript goes through _find_position and delegates to the owning
part. -/
def SeqChain.getitem (c : SeqChain) (curParts : List PyObj)
    (sub : Subscript) : Except Err GetResult :=
  match sub with
  | .tup => .error (.typeError ("multi-indices not supperted"))
  | .slc a b st => (Seq.initFrom c.len a b st).map GetResult.view
  | .nonIndex _ =>
    .error (.typeError
      ("index must be an integer, a slice or have an __index__ method"))
  | .idx i =>
    match c.findPosition curParts i with
    | .error err => .error err
    | .ok Option.none => .error (.indexError ("sequence index out of bounds"))
    | .ok (Option.some (p0, off)) =>
      match curParts.get? p0 with
      | Option.some p => (p.getInt off).map GetResult.elem
      | Option.none => .error (.indexError ("tuple index out of range"))

/-- The flattened concatenation P1 ++ P2 ++ … ++ Pn of the element
sequences of the parts (the reference model for chain indexing). -/
def flattenElems (parts : List PyObj) : List Elem :=
  (parts.map PyObj.pyElems).flatten

/-- The reference length of section 8 of the specification: the element
count of range(len_orig)[start:stop:step], computed directly from the
raw construction parameters (one single normalization, which is what the
range slicing of Python performs). -/
def refSliceCount (start stop step : Option Int) (n : Nat) :
    Except Err Nat :=
  match pyIndices start stop step n with
  | .error err => .error err
  | .ok (b, e, s) => .ok (rangeLength b e s)

deriving instance DecidableEq for Except

/-- Concrete list 0..9 used by several witnesses. -/
def l10 : List Elem := (List.range 10).map (fun n => Elem.int n)

/-- Concrete list [0, 1, 2]. -/
def l3 : List Elem := [Elem.int 0, Elem.int 1, Elem.int 2]

/-- Concrete string "abc" as a character list. -/
def abc : List Char := ['a', 'b', 'c']


/-! Lemmas about the index mathematics. -/

theorem adjIndex_bounds_pos (n : Nat) (s i : Int) (hs : 0 < s) :
    0 ≤ adjIndex n s i ∧ adjIndex n s i ≤ (n : Int) := by
  unfold adjIndex
  split_ifs <;> omega

theorem adjIndex_bounds_neg (n : Nat) (s i : Int) (hs : s < 0) :
    -1 ≤ adjIndex n s i ∧ adjIndex n s i ≤ (n : Int) - 1 := by
  unfold adjIndex
  split_ifs <;> omega

theorem adjIndex_fix_pos (n : Nat) (s i : Int) (hs : 0 < s) (h0 : 0 ≤ i)
    (hn : i ≤ (n : Int)) : adjIndex n s i = i := by
  unfold adjIndex
  split_ifs <;> omega

theorem adjIndex_fix_neg (n : Nat) (s i : Int) (hs : s < 0) (h0 : 0 ≤ i)
    (hn : i ≤ (n : Int) - 1) : adjIndex n s i = i := by
  unfold adjIndex
  split_ifs <;> omega

theorem pyIndices_some (b e s : Int) (n : Nat) (hs : s ≠ 0) :
    pyIndices (Option.some b) (Option.some e) (Option.some s) n =
      .ok (adjIndex n s b, adjIndex n s e, s) := by
  unfold pyIndices
  simp [hs, normBound]

theorem normBound_bounds_pos (o : Option Int) (dflt : Int) (n : Nat) (s : Int)
    (hs : 0 < s) (hd : 0 ≤ dflt ∧ dflt ≤ (n : Int)) :
    0 ≤ normBound o dflt n s ∧ normBound o dflt n s ≤ (n : Int) := by
  cases o with
  | none => exact hd
  | some i => exact adjIndex_bounds_pos n s i hs

theorem normBound_bounds_neg (o : Option Int) (dflt : Int) (n : Nat) (s : Int)
    (hs : s < 0) (hd : -1 ≤ dflt ∧ dflt ≤ (n : Int) - 1) :
    -1 ≤ normBound o dflt n s ∧ normBound o dflt n s ≤ (n : Int) - 1 := by
  cases o with
  | none => exact hd
  | some i => exact adjIndex_bounds_neg n s i hs

theorem pyIndices_ok (start stop step : Option Int) (n : Nat) (b e s : Int)
    (h : pyIndices start stop step n = .ok (b, e, s)) :
    s = step.getD 1 ∧ s ≠ 0 ∧
    b = normBound start (if s < 0 then (n : Int) - 1 else 0) n s ∧
    e = normBound stop (if s < 0 then -1 else (n : Int)) n s := by
  simp only [pyIndices] at h
  by_cases hs0 : step.getD 1 = 0
  · rw [if_pos hs0] at h
    exact absurd h (by simp)
  · rw [if_neg hs0] at h
    simp only [Except.ok.injEq, Prod.mk.injEq] at h
    obtain ⟨hb, he, hs⟩ := h
    subst hs
    exact ⟨rfl, hs0, hb.symm, he.symm⟩

theorem pyIndices_bounds (start stop step : Option Int) (n : Nat) (b e s : Int)
    (h : pyIndices start stop step n = .ok (b, e, s)) :
    s ≠ 0 ∧
    (0 < s → 0 ≤ b ∧ b ≤ (n : Int) ∧ 0 ≤ e ∧ e ≤ (n : Int)) ∧
    (s < 0 → -1 ≤ b ∧ b ≤ (n : Int) - 1 ∧ -1 ≤ e ∧ e ≤ (n : Int) - 1) := by
  obtain ⟨-, hs0, hb, he⟩ := pyIndices_ok start stop step n b e s h
  refine ⟨hs0, ?_, ?_⟩
  · intro hs
    have hns : ¬ s < 0 := by omega
    rw [if_neg hns] at hb he
    have A := normBound_bounds_pos start 0 n s hs (by omega)
    have B := normBound_bounds_pos stop (n : Int) n s hs (by omega)
    rw [← hb] at A
    rw [← he] at B
    exact ⟨A.1, A.2, B.1, B.2⟩
  · intro hs
    rw [if_pos hs] at hb he
    have A := normBound_bounds_neg start ((n : Int) - 1) n s hs (by omega)
    have B := normBound_bounds_neg stop (-1) n s hs (by omega)
    rw [← hb] at A
    rw [← he] at B
    exact ⟨A.1, A.2, B.1, B.2⟩

theorem pyIndices_error (start stop step : Option Int) (n : Nat) (err : Err)
    (h : pyIndices start stop step n = .error err) :
    err = .valueError ("slice step cannot be zero") := by
  simp only [pyIndices] at h
  by_cases hs0 : step.getD 1 = 0
  · rw [if_pos hs0] at h
    simp only [Except.error.injEq] at h
    exact h.symm
  · rw [if_neg hs0] at h
    exact absurd h (by simp)

theorem rangeLength_pos_bound (b e s i : Int) (hs : 0 < s) (h0 : 0 ≤ i)
    (hi : i < (rangeLength b e s : Int)) : 0 ≤ i * s ∧ b + i * s < e := by
  unfold rangeLength at hi
  rw [if_pos hs] at hi
  by_cases hbe : b < e
  case neg => rw [if_neg hbe] at hi; omega
  rw [if_pos hbe] at hi
  set q : Nat := (e - b - 1).toNat / s.toNat with hqdef
  have hiq : i ≤ (q : Int) := by omega
  have h1 : q * s.toNat ≤ (e - b - 1).toNat := Nat.div_mul_le_self _ _
  have h2 : (q : Int) * s ≤ e - b - 1 := by
    have h3 : (q : Int) * ((s.toNat : Nat) : Int) ≤ (((e - b - 1).toNat : Nat) : Int) := by
      exact_mod_cast h1
    rwa [Int.toNat_of_nonneg hs.le,
      Int.toNat_of_nonneg (by omega : (0 : Int) ≤ e - b - 1)] at h3
  have h4 : i * s ≤ (q : Int) * s := mul_le_mul_of_nonneg_right hiq hs.le
  exact ⟨mul_nonneg h0 hs.le, by linarith⟩

theorem rangeLength_neg_bound (b e s i : Int) (hs : s < 0) (h0 : 0 ≤ i)
    (hi : i < (rangeLength b e s : Int)) : i * s ≤ 0 ∧ e < b + i * s := by
  unfold rangeLength at hi
  rw [if_neg (by omega : ¬ 0 < s), if_pos hs] at hi
  by_cases heb : e < b
  case neg => rw [if_neg heb] at hi; omega
  rw [if_pos heb] at hi
  set q : Nat := (b - e - 1).toNat / (-s).toNat with hqdef
  have hiq : i ≤ (q : Int) := by omega
  have h1 : q * (-s).toNat ≤ (b - e - 1).toNat := Nat.div_mul_le_self _ _
  have h2 : (q : Int) * (-s) ≤ b - e - 1 := by
    have h3 : (q : Int) * (((-s).toNat : Nat) : Int) ≤ (((b - e - 1).toNat : Nat) : Int) := by
      exact_mod_cast h1
    rwa [Int.toNat_of_nonneg (by omega : (0 : Int) ≤ -s),
      Int.toNat_of_nonneg (by omega : (0 : Int) ≤ b - e - 1)] at h3
  have h4 : i * (-s) ≤ (q : Int) * (-s) :=
    mul_le_mul_of_nonneg_right hiq (by omega)
  constructor
  · nlinarith
  · nlinarith

/-! Lemmas about construction and elementary access. -/

theorem Seq.initFrom_ok (n : Nat) (start stop step : Option Int) (v : Seq)
    (h : Seq.initFrom n start stop step = .ok v) :
    v.len_orig = n ∧ pyIndices start stop step n = .ok (v.b, v.e, v.s) ∧
    v.len = rangeLength (adjIndex n v.s v.b) (adjIndex n v.s v.e) v.s := by
  unfold Seq.initFrom at h
  cases hpy : pyIndices start stop step n with
  | error err => rw [hpy] at h; exact absurd h (by simp)
  | ok t =>
    obtain ⟨b, e, s⟩ := t
    rw [hpy] at h
    dsimp only at h
    have hs0 : s ≠ 0 := (pyIndices_bounds start stop step n b e s hpy).1
    rw [pyIndices_some b e s n hs0] at h
    dsimp only at h
    simp only [Except.ok.injEq] at h
    rw [← h]
    exact ⟨rfl, rfl, rfl⟩

theorem Seq.initFrom_not_lengthChanged (n : Nat) (a c st : Option Int) (m : String) :
    Seq.initFrom n a c st ≠ .error (.lengthChangedError m) := by
  unfold Seq.initFrom
  cases hpy : pyIndices a c st n with
  | error err =>
    have herr := pyIndices_error a c st n err hpy
    subst herr
    simp
  | ok t =>
    obtain ⟨b, e, s⟩ := t
    have hs0 : s ≠ 0 := (pyIndices_bounds a c st n b e s hpy).1
    dsimp only
    rw [pyIndices_some b e s n hs0]
    simp

theorem Seq.init_ok (obj : PyObj) (start stop step : Option Int) (v : Seq)
    (h : Seq.init obj start stop step = .ok v) :
    obj.issequence = true ∧ Seq.initFrom obj.pyLen start stop step = .ok v := by
  unfold Seq.init at h
  split at h
  · exact ⟨by assumption, h⟩
  · exact absurd h (by simp)

theorem Seq.initFrom_len (n : Nat) (start stop step : Option Int) (v : Seq)
    (h : Seq.initFrom n start stop step = .ok v) (hb : 0 ≤ v.b) (he : 0 ≤ v.e) :
    v.len = rangeLength v.b v.e v.s := by
  obtain ⟨hn, hpy, hlen⟩ := Seq.initFrom_ok n start stop step v h
  obtain ⟨hs0, hpos, hneg⟩ := pyIndices_bounds _ _ _ _ _ _ _ hpy
  rcases lt_or_gt_of_ne hs0 with hs | hs
  · obtain ⟨-, hb1, -, he1⟩ := hneg hs
    rw [hlen, adjIndex_fix_neg n v.s v.b hs hb hb1,
      adjIndex_fix_neg n v.s v.e hs he he1]
  · obtain ⟨-, hb1, -, he1⟩ := hpos hs
    rw [hlen, adjIndex_fix_pos n v.s v.b hs hb hb1,
      adjIndex_fix_pos n v.s v.e hs he he1]

theorem chainLenAcc_ok (parts : List PyObj) : ∀ (acc m : Nat),
    chainLenAcc parts acc = .ok m →
    m = acc + (parts.map PyObj.pyLen).sum ∧ ∀ p ∈ parts, p.issequence = true := by
  induction parts with
  | nil =>
    intro acc m h
    simp only [chainLenAcc, Except.ok.injEq] at h
    simp [← h]
  | cons p ps ih =>
    intro acc m h
    simp only [chainLenAcc] at h
    by_cases hp : p.issequence
    · rw [if_pos hp] at h
      obtain ⟨h1, h2⟩ := ih _ _ h
      constructor
      · rw [h1]; simp [List.sum_cons]; omega
      · intro q hq
        rcases List.mem_cons.mp hq with rfl | hq'
        · exact hp
        · exact h2 q hq'
    · rw [if_neg hp] at h
      exact absurd h (by simp)

theorem chainLenAcc_err (parts : List PyObj) : ∀ (acc : Nat),
    (∃ p ∈ parts, p.issequence = false) →
    ∃ q ∈ parts, q.issequence = false ∧
      chainLenAcc parts acc =
        .error (.typeError ("\x27" ++ q.typeName ++ "\x27 object is not a sequence")) := by
  induction parts with
  | nil =>
    intro acc h
    obtain ⟨p, hp, -⟩ := h
    cases hp
  | cons r ps ih =>
    intro acc h
    by_cases hr : r.issequence
    · obtain ⟨p, hp, hpf⟩ := h
      have hp' : p ∈ ps := by
        rcases List.mem_cons.mp hp with rfl | h'
        · rw [hr] at hpf; cases hpf
        · exact h'
      obtain ⟨q, hq, hqf, heq⟩ := ih (acc + r.pyLen) ⟨p, hp', hpf⟩
      refine ⟨q, List.mem_cons_of_mem _ hq, hqf, ?_⟩
      simp only [chainLenAcc]
      rw [if_pos hr]
      exact heq
    · refine ⟨r, List.mem_cons_self _ _, by simpa using hr, ?_⟩
      simp only [chainLenAcc]
      rw [if_neg hr]

theorem SeqChain.init_sum (parts : List PyObj) (c : SeqChain)
    (h : SeqChain.init parts = .ok c) :
    c.len = (parts.map PyObj.pyLen).sum ∧ ∀ p ∈ parts, p.issequence = true := by
  unfold SeqChain.init at h
  cases hacc : chainLenAcc parts 0 with
  | error err => rw [hacc] at h; exact absurd h (by simp)
  | ok m =>
    rw [hacc] at h
    obtain ⟨h1, h2⟩ := chainLenAcc_ok parts 0 m hacc
    simp only [Except.ok.injEq] at h
    rw [← h]
    refine ⟨?_, h2⟩
    show m = (parts.map PyObj.pyLen).sum
    omega

theorem PyObj.pyLen_eq (p : PyObj) : p.pyLen = p.pyElems.length := by
  cases p <;> simp [PyObj.pyLen, PyObj.pyElems]

theorem nthD_append_left (l₁ l₂ : List α) (n : Nat) (d : α)
    (h : n < l₁.length) : nthD (l₁ ++ l₂) n d = nthD l₁ n d := by
  unfold nthD
  rw [List.get?_append h]

theorem nthD_append_right (l₁ l₂ : List α) (n : Nat) (d : α)
    (h : l₁.length ≤ n) : nthD (l₁ ++ l₂) n d = nthD l₂ (n - l₁.length) d := by
  unfold nthD
  rw [List.get?_append_right h]

theorem flattenElems_cons (p : PyObj) (ps : List PyObj) :
    flattenElems (p :: ps) = p.pyElems ++ flattenElems ps := by
  simp [flattenElems]

theorem PyObj.getInt_spec (p : PyObj) (j : Int) (hseq : p.issequence = true)
    (h0 : 0 ≤ j) (hj : j < (p.pyLen : Int)) :
    p.getInt j = .ok (nthD p.pyElems j.toNat default) := by
  cases p with
  | list xs =>
    simp only [PyObj.getInt, PyObj.pyElems]
    simp only [listGetInt]
    rw [if_neg (by omega : ¬ j < 0)]
    rw [if_pos ?_]
    simp only [PyObj.pyLen] at hj
    exact ⟨h0, by exact_mod_cast hj⟩
  | str s =>
    simp only [PyObj.getInt, PyObj.pyElems]
    simp only [listGetInt]
    rw [if_neg (by omega : ¬ j < 0)]
    rw [if_pos ?_]
    simp only [PyObj.pyLen] at hj
    simp only [List.length_map]
    exact ⟨h0, by exact_mod_cast hj⟩
  | intObj m => simp [PyObj.issequence] at hseq
  | noneObj => simp [PyObj.issequence] at hseq

/-! Lemmas about the locate-part walk of SeqChain. -/

theorem findLoop_start (index : Int) (ps : List PyObj) : ∀ st : FindState,
    (findLoop index ps st).start = st.start + (ps.map PyObj.pyLen).sum := by
  induction ps with
  | nil => intro st; simp [findLoop]
  | cons p ps ih =>
    intro st
    simp only [findLoop]
    rw [ih]
    simp only [List.map_cons, List.sum_cons]
    omega

theorem findLoop_skip (index : Int) (ps : List PyObj) : ∀ st : FindState,
    index < (st.start : Int) → (findLoop index ps st).ret = st.ret := by
  induction ps with
  | nil => intro st h; rfl
  | cons p ps ih =>
    intro st h
    simp only [findLoop]
    have hC : ¬((st.start : Int) ≤ index ∧
        index < ((st.start + p.pyLen : Nat) : Int)) := by
      rintro ⟨h1, -⟩
      omega
    rw [if_neg hC]
    exact ih ⟨st.i + 1, st.ret, st.start + p.pyLen⟩ (by push_cast; omega)

theorem findLoop_found (index : Int) (d : Elem) (ps : List PyObj) :
    ∀ st : FindState,
    (st.start : Int) ≤ index →
    index < (st.start : Int) + ((ps.map PyObj.pyLen).sum : Int) →
    ∃ (k : Nat) (off : Int) (p : PyObj),
      (findLoop index ps st).ret = Option.some (st.i + k, off) ∧
      ps.get? k = Option.some p ∧ 0 ≤ off ∧ off < (p.pyLen : Int) ∧
      nthD p.pyElems off.toNat d =
        nthD (flattenElems ps) (index - st.start).toNat d := by
  induction ps with
  | nil =>
    intro st h1 h2
    exfalso
    simp only [List.map_nil, List.sum_nil, Nat.cast_zero, add_zero] at h2
    omega
  | cons p ps ih =>
    intro st h1 h2
    by_cases hc : index < ((st.start + p.pyLen : Nat) : Int)
    · refine ⟨0, index - (st.start : Int), p, ?_, rfl, by omega, by omega, ?_⟩
      · simp only [findLoop]
        have hC : ((st.start : Int) ≤ index ∧
            index < ((st.start + p.pyLen : Nat) : Int)) := ⟨h1, hc⟩
        rw [if_pos hC]
        rw [findLoop_skip index ps
          ⟨st.i + 1, Option.some (st.i, index - (st.start : Int)),
            st.start + p.pyLen⟩ (by push_cast; push_cast at hc; omega)]
        simp
      · rw [flattenElems_cons, nthD_append_left]
        have hpl := p.pyLen_eq
        omega
    · push_neg at hc
      simp only [findLoop]
      have hC : ¬((st.start : Int) ≤ index ∧
          index < ((st.start + p.pyLen : Nat) : Int)) := by
        rintro ⟨-, h3⟩
        omega
      rw [if_neg hC]
      obtain ⟨k, off, q, hret, hget, hoff0, hoffl, helem⟩ :=
        ih ⟨st.i + 1, st.ret, st.start + p.pyLen⟩ hc (by
          simp only [List.map_cons, List.sum_cons] at h2
          push_cast at h2 ⊢
          omega)
      have hik : st.i + 1 + k = st.i + (k + 1) := by omega
      rw [hik] at hret
      refine ⟨k + 1, off, q, hret, hget, hoff0, hoffl, ?_⟩
      have hpl := p.pyLen_eq
      rw [flattenElems_cons,
        nthD_append_right _ _ _ _ (by omega : p.pyElems.length ≤ (index - (st.start : Int)).toNat)]
      have harith : (index - (st.start : Int)).toNat - p.pyElems.length =
          (index - ((st.start + p.pyLen : Nat) : Int)).toNat := by omega
      rw [harith]
      exact helem

/-! Lemmas about list sums under a single-position update. -/

theorem natSum_set (l : List Nat) : ∀ (k a : Nat), k < l.length →
    (l.set k a).sum + nthD l k 0 = l.sum + a := by
  induction l with
  | nil =>
    intro k a h
    cases h
  | cons x xs ih =>
    intro k a h
    cases k with
    | zero =>
      simp only [List.set, List.sum_cons, nthD, List.get?, Option.getD]
      omega
    | succ k =>
      simp only [List.set, List.sum_cons]
      have hx := ih k a (by simpa using h)
      have hnth : nthD (x :: xs) (k + 1) 0 = nthD xs k 0 := rfl
      rw [hnth]
      omega

theorem map_set_pyLen (l : List PyObj) : ∀ (k : Nat) (q : PyObj),
    (l.set k q).map PyObj.pyLen = (l.map PyObj.pyLen).set k q.pyLen := by
  induction l with
  | nil => intro k q; rfl
  | cons x xs ih =>
    intro k q
    cases k with
    | zero => rfl
    | succ k => simp [List.set, ih]

theorem nthD_map_pyLen (l : List PyObj) (k : Nat) :
    nthD (l.map PyObj.pyLen) k 0 = (nthD l k PyObj.noneObj).pyLen := by
  unfold nthD
  rw [List.get?_map]
  cases l.get? k <;> simp [PyObj.pyLen]

theorem sum_set_ne (parts : List PyObj) (k : Nat) (q : PyObj)
    (hk : k < parts.length)
    (hq : q.pyLen ≠ (nthD parts k PyObj.noneObj).pyLen) :
    ((parts.set k q).map PyObj.pyLen).sum ≠ (parts.map PyObj.pyLen).sum := by
  rw [map_set_pyLen]
  have hsum := natSum_set (parts.map PyObj.pyLen) k q.pyLen (by simpa using hk)
  rw [nthD_map_pyLen] at hsum
  omega

/-! Theorems settling the claims. -/

/-- C1: code-bug evidence.  Slicing a Seq does not return a composed Seq
over the same collection: the slice path of Seq.__getitem__ evaluates
the undefined name SeqView and raises NameError.  Concretely, for the
view Seq([0..9], 1, 8, 2) (for which the claim predicts the composed
triple (3, 7, 2)), the subscript slice(1, 3) raises NameError. -/
theorem c1_seq_slice_raises_nameError :
    Seq.init (.list l10) (Option.some 1) (Option.some 8) (Option.some 2) =
      .ok ⟨10, 1, 8, 2, 4⟩ ∧
    Seq.getitem ⟨10, 1, 8, 2, 4⟩ (.list l10)
        (.slc (Option.some 1) (Option.some 3) Option.none) =
      .error (.nameError ("name \x27SeqView\x27 is not defined")) :=
  ⟨rfl, rfl⟩

/-- C4: code-bug evidence.  Re-slicing cannot be exercised at all:
already the inner Get(v, s1) on a fresh full view over [0..9] raises
NameError (undefined name SeqView), so Get(Get(v, s1), s2) never yields
an element sequence, contradicting exactness of re-slicing. -/
theorem c4_reslice_raises_nameError :
    Seq.init (.list l10) Option.none Option.none Option.none =
      .ok ⟨10, 0, 10, 1, 10⟩ ∧
    Seq.getitem ⟨10, 0, 10, 1, 10⟩ (.list l10)
        (.slc (Option.some 2) (Option.some 9) (Option.some 3)) =
      .error (.nameError ("name \x27SeqView\x27 is not defined")) :=
  ⟨rfl, rfl⟩

/-- C2: counterexample.  Build SeqChain([0,1], [2,3,4]) (recorded length
5), then shrink the second part to [2,3]; the next access by slice does
not fail with LengthChangedError — it succeeds, returning a Seq view
over the chain. -/
theorem c2_counterexample :
    SeqChain.init [.list [Elem.int 0, Elem.int 1],
        .list [Elem.int 2, Elem.int 3, Elem.int 4]] = .ok ⟨5⟩ ∧
    SeqChain.getitem ⟨5⟩
        [.list [Elem.int 0, Elem.int 1], .list [Elem.int 2, Elem.int 3]]
        (.slc Option.none (Option.some 2) Option.none) =
      .ok (.view ⟨5, 0, 2, 1, 2⟩) :=
  ⟨rfl, rfl⟩

/-- C2: amended claim.  After the length of any single dependency of a
SeqChain changes, every integer-index access with an index inside the
recorded range fails with LengthChangedError — even when the mutated
part is not the one owning the queried index — while an access by slice
never fails with LengthChangedError (it wraps the chain in a Seq, and
staleness is only detected when elements of that Seq are accessed). -/
theorem c2_stale_chain_detection (parts : List PyObj) (c : SeqChain)
    (k : Nat) (q : PyObj)
    (hinit : SeqChain.init parts = .ok c)
    (hk : k < parts.length)
    (hq : q.pyLen ≠ (nthD parts k PyObj.noneObj).pyLen) :
    (∀ i : Int, 0 ≤ i → i < (c.len : Int) →
      c.getitem (parts.set k q) (.idx i) =
        .error (.lengthChangedError
          ("length of one of chained sequences has changed"))) ∧
    (∀ (a b st : Option Int) (m : String),
      c.getitem (parts.set k q) (.slc a b st) ≠
        .error (.lengthChangedError m)) := by
  obtain ⟨hlen, -⟩ := SeqChain.init_sum parts c hinit
  have hsum : ((parts.set k q).map PyObj.pyLen).sum ≠ c.len := by
    rw [hlen]
    exact sum_set_ne parts k q hk hq
  constructor
  · intro i h0 hi
    have hstart := findLoop_start i (parts.set k q) ⟨0, Option.none, 0⟩
    have hfp : c.findPosition (parts.set k q) i =
        .error (.lengthChangedError
          ("length of one of chained sequences has changed")) := by
      simp only [SeqChain.findPosition]
      rw [if_neg (by omega : ¬(i < 0 ∨ (c.len : Int) ≤ i))]
      have hstart2 : (findLoop i (parts.set k q) ⟨0, Option.none, 0⟩).start =
          ((parts.set k q).map PyObj.pyLen).sum := by simpa using hstart
      have hcond : (findLoop i (parts.set k q) ⟨0, Option.none, 0⟩).start ≠ c.len := by
        rw [hstart2]
        exact hsum
      rw [if_pos hcond]
    simp only [SeqChain.getitem, hfp]
  · intro a b st m hcontra
    have habs : Seq.initFrom c.len a b st = .error (.lengthChangedError m) := by
      cases hif : Seq.initFrom c.len a b st with
      | error err =>
        have : SeqChain.getitem c (parts.set k q) (.slc a b st) = .error err := by
          show (Seq.initFrom c.len a b st).map GetResult.view = .error err
          rw [hif]
          rfl
        rw [this] at hcontra
        simp only [Except.error.injEq] at hcontra
        rw [hcontra]
      | ok w =>
        have : SeqChain.getitem c (parts.set k q) (.slc a b st) =
            .ok (.view w) := by
          show (Seq.initFrom c.len a b st).map GetResult.view = .ok (.view w)
          rw [hif]
          rfl
        rw [this] at hcontra
        exact absurd hcontra (by simp)
    exact Seq.initFrom_not_lengthChanged c.len a b st m habs

/-- Witness for C2 at the concrete chain built from [0,1] and [2,3,4]
with the second part shrunk to [2,3]: the integer access Get(0) fails
with LengthChangedError although part 0 is untouched, while the slice
access does not fail with LengthChangedError. -/
theorem c2_stale_chain_detection_witness :
    SeqChain.getitem ⟨5⟩
        [.list [Elem.int 0, Elem.int 1], .list [Elem.int 2, Elem.int 3]]
        (.idx 0) =
      .error (.lengthChangedError
        ("length of one of chained sequences has changed")) ∧
    SeqChain.getitem ⟨5⟩
        [.list [Elem.int 0, Elem.int 1], .list [Elem.int 2, Elem.int 3]]
        (.slc Option.none Option.none Option.none) ≠
      .error (.lengthChangedError
        ("length of one of chained sequences has changed")) := by
  have h := c2_stale_chain_detection
    [.list [Elem.int 0, Elem.int 1], .list [Elem.int 2, Elem.int 3, Elem.int 4]]
    ⟨5⟩ 1 (.list [Elem.int 2, Elem.int 3]) rfl (by decide) (by decide)
  exact ⟨h.1 0 (by decide) (by decide),
    h.2 Option.none Option.none Option.none
      ("length of one of chained sequences has changed")⟩

/-- C3: counterexample.  On SeqChain([0,1,2], "abc") the access Get(-1)
does not return the character c: _find_position returns None for every
negative index, so Get(-1) raises IndexError. -/
theorem c3_counterexample :
    SeqChain.init [.list l3, .str abc] = .ok ⟨6⟩ ∧
    SeqChain.getitem ⟨6⟩ [.list l3, .str abc] (.idx (-1)) =
      .error (.indexError ("sequence index out of bounds")) :=
  ⟨rfl, rfl⟩

/-- C3: amended claim.  SeqChain([0,1,2], "abc") has length 6 and Get(3)
returns the one-character string a, but integer indexing of a SeqChain
does not support the negative-index convention: Get(-1) raises
IndexError instead of returning c. -/
theorem c3_chain_scenario :
    SeqChain.init [.list l3, .str abc] = .ok ⟨6⟩ ∧
    (⟨6⟩ : SeqChain).len = 6 ∧
    SeqChain.getitem ⟨6⟩ [.list l3, .str abc] (.idx 3) =
      .ok (.elem (.chr 'a')) ∧
    SeqChain.getitem ⟨6⟩ [.list l3, .str abc] (.idx (-1)) =
      .error (.indexError ("sequence index out of bounds")) :=
  ⟨rfl, rfl, rfl, rfl⟩

/-- C5: for a successfully constructed SeqChain accessed while the
lengths of its parts are unchanged, every integer index i in [0, len)
returns exactly the element at position i of the flattened concatenation
of the parts. -/
theorem c5_chain_flattening (parts : List PyObj) (c : SeqChain)
    (hinit : SeqChain.init parts = .ok c) (i : Int) (h0 : 0 ≤ i)
    (hi : i < (c.len : Int)) :
    c.getitem parts (.idx i) =
      .ok (.elem (nthD (flattenElems parts) i.toNat default)) := by
  obtain ⟨hlen, hall⟩ := SeqChain.init_sum parts c hinit
  obtain ⟨k, off, p, hret, hget, hoff0, hoffl, helem⟩ :=
    findLoop_found i default parts ⟨0, Option.none, 0⟩ (by simpa using h0)
      (by
        rw [hlen] at hi
        simpa using hi)
  have hstart := findLoop_start i parts ⟨0, Option.none, 0⟩
  have hstart2 : (findLoop i parts ⟨0, Option.none, 0⟩).start =
      (parts.map PyObj.pyLen).sum := by simpa using hstart
  have hfp : c.findPosition parts i = .ok (Option.some (k, off)) := by
    simp only [SeqChain.findPosition]
    rw [if_neg (by omega : ¬(i < 0 ∨ (c.len : Int) ≤ i))]
    have hcond : ¬((findLoop i parts ⟨0, Option.none, 0⟩).start ≠ c.len) := by
      rw [hstart2]
      omega
    rw [if_neg hcond, hret]
    simp
  simp only [SeqChain.getitem, hfp]
  rw [hget]
  dsimp only
  rw [PyObj.getInt_spec p off (hall p (List.get?_mem hget)) hoff0 hoffl]
  have helem2 : nthD p.pyElems off.toNat default =
      nthD (flattenElems parts) i.toNat default := by simpa using helem
  rw [helem2]
  rfl

/-- Witness for C5 at SeqChain([0,1,2], "abc") and index 4: the result
is the element at position 4 of the flattening, the character b. -/
theorem c5_chain_flattening_witness :
    SeqChain.getitem ⟨6⟩ [.list l3, .str abc] (.idx 4) =
      .ok (.elem (.chr 'b')) :=
  c5_chain_flattening [.list l3, .str abc] ⟨6⟩ rfl 4 (by decide) (by decide)

/-- C6: counterexample.  Seq([0,1,2], step=-1) records len = 0, because
the construction re-slices range(3) with the already normalized triple
(2, -1, -1), whose stop -1 is reinterpreted as index 2, while the
reference count of range(3)[::-1] from the same parameters is 3. -/
theorem c6_counterexample :
    Seq.init (.list l3) Option.none Option.none (Option.some (-1)) =
      .ok ⟨3, 2, -1, -1, 0⟩ ∧
    refSliceCount Option.none Option.none (Option.some (-1)) 3 = .ok 3 ∧
    (0 : Nat) ≠ 3 :=
  ⟨rfl, rfl, by omega⟩

/-- C6: amended claim.  For a successfully constructed Seq whose
normalized start and stop are non-negative (all positive-step
combinations, including out-of-range bounds, and the negative-step ones
that neither start below index 0 nor extend down to it), the recorded
length equals the reference count of range(len_orig)[start:stop:step];
negative-step slices whose normalized start or stop is -1 are
mis-counted by the construction.  For every successfully constructed
SeqChain, the recorded length equals the sum of the part lengths. -/
theorem c6_length_invariant :
    (∀ (obj : PyObj) (start stop step : Option Int) (v : Seq),
      Seq.init obj start stop step = .ok v → 0 ≤ v.b → 0 ≤ v.e →
      refSliceCount start stop step obj.pyLen = .ok v.len) ∧
    (∀ (parts : List PyObj) (c : SeqChain),
      SeqChain.init parts = .ok c →
      c.len = (parts.map PyObj.pyLen).sum) := by
  constructor
  · intro obj start stop step v h hb he
    obtain ⟨hseq, hfrom⟩ := Seq.init_ok obj start stop step v h
    obtain ⟨hn, hpy, -⟩ := Seq.initFrom_ok _ _ _ _ _ hfrom
    have hlen := Seq.initFrom_len _ _ _ _ _ hfrom hb he
    unfold refSliceCount
    rw [hpy]
    dsimp only
    rw [hlen]
  · intro parts c h
    exact (SeqChain.init_sum parts c h).1

/-- Witness for C6: the view Seq([0..9], 1, 8, 2) records length 4,
equal to the reference count, and SeqChain([0,1,2], "abc") records
length 6, the sum of the part lengths. -/
theorem c6_length_invariant_witness :
    refSliceCount (Option.some 1) (Option.some 8) (Option.some 2)
      (PyObj.list l10).pyLen = .ok (4 : Nat) ∧
    (⟨6⟩ : SeqChain).len = ([PyObj.list l3, PyObj.str abc].map PyObj.pyLen).sum := by
  constructor
  · exact c6_length_invariant.1 (.list l10) (Option.some 1) (Option.some 8)
      (Option.some 2) ⟨10, 1, 8, 2, 4⟩ rfl (by decide) (by decide)
  · exact c6_length_invariant.2 [PyObj.list l3, PyObj.str abc] ⟨6⟩ rfl

/-- C7: every Seq access with an integer or a slice subscript fails with
LengthChangedError whenever the current length of the underlying
collection differs from the recorded len_orig; the comparison reads the
state of the collection presented at access time, hence it is performed
on every access. -/
theorem c7_seq_staleness (v : Seq) (cur : PyObj)
    (h : cur.pyLen ≠ v.len_orig) :
    (∀ i : Int, v.getitem cur (.idx i) =
      .error (.lengthChangedError
        ("length of underlying sequence has changed"))) ∧
    (∀ a b st : Option Int, v.getitem cur (.slc a b st) =
      .error (.lengthChangedError
        ("length of underlying sequence has changed"))) := by
  constructor
  · intro i
    show (if cur.pyLen ≠ v.len_orig then _ else _) = _
    rw [if_pos h]
  · intro a b st
    show (if cur.pyLen ≠ v.len_orig then _ else _) = _
    rw [if_pos h]

/-- Witness for C7: the view recorded over a length-3 collection fails
with LengthChangedError on both access kinds once the collection has
length 2. -/
theorem c7_seq_staleness_witness :
    Seq.getitem ⟨3, 0, 3, 1, 3⟩ (.list [Elem.int 0, Elem.int 1]) (.idx 0) =
      .error (.lengthChangedError
        ("length of underlying sequence has changed")) ∧
    Seq.getitem ⟨3, 0, 3, 1, 3⟩ (.list [Elem.int 0, Elem.int 1])
        (.slc Option.none Option.none Option.none) =
      .error (.lengthChangedError
        ("length of underlying sequence has changed")) := by
  have h := c7_seq_staleness ⟨3, 0, 3, 1, 3⟩
    (.list [Elem.int 0, Elem.int 1]) (by decide)
  exact ⟨h.1 0, h.2 Option.none Option.none Option.none⟩

/-- C8: construction rejects values lacking the length-plus-access
capability with a TypeError naming the concrete type of the offending
value — Seq.Construct for the collection itself, SeqChain.Construct for
the first offending part. -/
theorem c8_construction_rejection :
    (∀ (obj : PyObj) (start stop step : Option Int), obj.issequence = false →
      Seq.init obj start stop step =
        .error (.typeError
          ("\x27" ++ obj.typeName ++ "\x27 object is not a sequence"))) ∧
    (∀ (parts : List PyObj) (p : PyObj), p ∈ parts → p.issequence = false →
      ∃ q ∈ parts, q.issequence = false ∧
        SeqChain.init parts =
          .error (.typeError
            ("\x27" ++ q.typeName ++ "\x27 object is not a sequence"))) := by
  constructor
  · intro obj start stop step h
    unfold Seq.init
    rw [if_neg (by simp [h])]
  · intro parts p hp hpf
    obtain ⟨q, hq, hqf, heq⟩ := chainLenAcc_err parts 0 ⟨p, hp, hpf⟩
    refine ⟨q, hq, hqf, ?_⟩
    unfold SeqChain.init
    rw [heq]

/-- Witness for C8: offering the integer 5 as a collection fails naming
the type int, and a chain part None fails naming the type NoneType. -/
theorem c8_construction_rejection_witness :
    Seq.init (.intObj 5) Option.none Option.none Option.none =
      .error (.typeError ("\x27int\x27 object is not a sequence")) ∧
    (∃ q ∈ [PyObj.list l3, PyObj.noneObj], q.issequence = false ∧
      SeqChain.init [PyObj.list l3, PyObj.noneObj] =
        .error (.typeError
          ("\x27" ++ q.typeName ++ "\x27 object is not a sequence"))) := by
  constructor
  · exact c8_construction_rejection.1 (.intObj 5)
      Option.none Option.none Option.none rfl
  · exact c8_construction_rejection.2 [PyObj.list l3, PyObj.noneObj]
      PyObj.noneObj (by decide) rfl

/-- C9: an out-of-range integer index on a SeqChain (negative, or at
least the recorded length) raises IndexError regardless of the current
part lengths: the bounds check precedes both the walk and the
total-length re-validation, so such an access never raises
LengthChangedError even when part lengths have changed. -/
theorem c9_chain_bounds_first (c : SeqChain) (curParts : List PyObj)
    (i : Int) (h : i < 0 ∨ (c.len : Int) ≤ i) :
    c.getitem curParts (.idx i) =
      .error (.indexError ("sequence index out of bounds")) := by
  have hfp : c.findPosition curParts i = .ok Option.none := by
    unfold SeqChain.findPosition
    rw [if_pos h]
  simp only [SeqChain.getitem, hfp]

/-- Witness for C9: a chain with recorded length 2 whose single current
part meanwhile has length 3 still raises IndexError (not
LengthChangedError) for the out-of-range index 5. -/
theorem c9_chain_bounds_first_witness :
    SeqChain.getitem ⟨2⟩ [PyObj.list l3] (.idx 5) =
      .error (.indexError ("sequence index out of bounds")) :=
  c9_chain_bounds_first ⟨2⟩ [PyObj.list l3] 5 (by decide)

/-- C10: counterexample.  Seq([10,20,30], -5, 0, -1) is constructed with
normalized start -1 and recorded len 2, so the staleness check passes,
the view index 0 is in range, and the delegated collection index
start + 0*step = -1 is not in [0, 3); the Python access wraps around and
returns the last element 30 instead. -/
theorem c10_counterexample :
    Seq.init (.list [Elem.int 10, Elem.int 20, Elem.int 30])
        (Option.some (-5)) (Option.some 0) (Option.some (-1)) =
      .ok ⟨3, -1, 0, -1, 2⟩ ∧
    Seq.getitem ⟨3, -1, 0, -1, 2⟩
        (.list [Elem.int 10, Elem.int 20, Elem.int 30]) (.idx 0) =
      .ok (.elem (.int 30)) ∧
    ((-1 : Int) + 0 * (-1) < 0) :=
  ⟨rfl, rfl, by omega⟩

/-- C10: amended claim.  For a successfully constructed Seq whose
normalized start is non-negative (always the case for positive steps),
if the staleness check passes and the resolved integer index i lies in
[0, len), then the delegated collection index start + i*step lies in
[0, len_orig); when the normalized start is -1 (a negative step whose
start was clamped from below), the delegated index can be negative and
the underlying Python access wraps around instead. -/
theorem c10_delegated_in_bounds (obj : PyObj) (start stop step : Option Int)
    (v : Seq) (hv : Seq.init obj start stop step = .ok v) (hb : 0 ≤ v.b)
    (cur : PyObj) (hcur : cur.pyLen = v.len_orig)
    (i : Int) (h0 : 0 ≤ i) (hi : i < (v.len : Int)) :
    0 ≤ v.b + i * v.s ∧ v.b + i * v.s < (v.len_orig : Int) := by
  obtain ⟨hseq, hfrom⟩ := Seq.init_ok obj start stop step v hv
  obtain ⟨hn, hpy, hlen⟩ := Seq.initFrom_ok _ _ _ _ _ hfrom
  obtain ⟨hs0, hpos, hneg⟩ := pyIndices_bounds _ _ _ _ _ _ _ hpy
  rcases lt_or_gt_of_ne hs0 with hs | hs
  · obtain ⟨hbm1, hb1, hem1, he1⟩ := hneg hs
    by_cases hecase : 0 ≤ v.e
    · have hlen2 := Seq.initFrom_len _ _ _ _ _ hfrom hb hecase
      obtain ⟨hprod, hlt⟩ := rangeLength_neg_bound v.b v.e v.s i hs h0
        (by rw [← hlen2]; exact hi)
      constructor
      · linarith
      · rw [hn]
        linarith
    · have he : v.e = -1 := by omega
      have hadjb : adjIndex obj.pyLen v.s v.b = v.b :=
        adjIndex_fix_neg _ _ _ hs hb hb1
      have hadje : adjIndex obj.pyLen v.s v.e = (obj.pyLen : Int) - 1 := by
        unfold adjIndex
        rw [if_pos (by omega : v.e < 0),
          if_neg (by omega : ¬ v.e + (obj.pyLen : Int) < 0)]
        omega
      rw [hadjb, hadje] at hlen
      have hzero : rangeLength v.b ((obj.pyLen : Int) - 1) v.s = 0 := by
        unfold rangeLength
        rw [if_neg (by omega : ¬ 0 < v.s), if_pos hs,
          if_neg (by omega : ¬ (obj.pyLen : Int) - 1 < v.b)]
      rw [hzero] at hlen
      exfalso
      rw [hlen] at hi
      omega
  · obtain ⟨hb0, hb1, he0, he1⟩ := hpos hs
    have hlen2 := Seq.initFrom_len _ _ _ _ _ hfrom hb he0
    obtain ⟨hprod, hlt⟩ := rangeLength_pos_bound v.b v.e v.s i hs h0
      (by rw [← hlen2]; exact hi)
    constructor
    · linarith
    · rw [hn]
      linarith

/-- Witness for C10 at Seq([0..9], 1, 8, 2), view index 3: the delegated
index 1 + 3*2 = 7 lies in [0, 10). -/
theorem c10_delegated_in_bounds_witness :
    (0 : Int) ≤ 1 + 3 * 2 ∧ (1 : Int) + 3 * 2 < ((10 : Nat) : Int) :=
  c10_delegated_in_bounds (.list l10) (Option.some 1) (Option.some 8)
    (Option.some 2) ⟨10, 1, 8, 2, 4⟩ rfl (by decide) (.list l10) rfl 3
    (by decide) (by decide)

end Views
